import Mathlib

/-!
Verification development for the mongos-k8s-operator rolling-upgrade
partition controller (`src/k8s_upgrade.py`).

The embedding models:
* `KubernetesUpgrade._determine_partition` (`determine_partition` below),
* `KubernetesUpgrade.reconcile_partition` (`reconcile_partition` below),
* the `MongosUpgrade` event/action handlers `_on_force_upgrade_action`,
  `_on_pre_upgrade_check_action` and `_reconcile_upgrade`.

Quantities supplied by the external `charms.mongos.v0.upgrade_helpers`
library (not part of this repository's `src/`) — `in_progress`,
`_sorted_units`, `UnitState`, `versions_set`, `is_compatible`,
`pre_upgrade_check` — are modelled from the specification, as noted on
each definition.
-/

/-- Modelled from the spec: the `UnitState` enum of the upgrade-helpers
library.  The partition controller only ever compares a state against
`HEALTHY`; a member that has not reported a state yet has no `state` key in
the peer relation data and is modelled as `none` (the spec's `UNKNOWN`). -/
inductive UnitState where
  | healthy
  | restarting
  | upgrading
  | unhealthy
deriving DecidableEq, BEq

/-- One cluster unit as seen by the partition controller: its ordinal
(`unit_number`), the `state` key of its peer-relation databag, and its
Kubernetes controller-revision hash
(`_unit_workload_container_versions[unit.name]`). -/
structure Member where
  ordinal : Nat
  state : Option UnitState
  revision : String
deriving DecidableEq

/-- The state read by `KubernetesUpgrade`: the member list in the order
scanned by `reconcile_partition` (`self._sorted_units`, ascending unit
number), the app's target controller-revision hash
(`_app_workload_container_version`), and the StatefulSet partition
(`self._partition`). -/
structure UpgradeState where
  members : List Member
  appRevision : String
  partition : Nat
deriving DecidableEq

/-- Modelled from the spec: `AbstractUpgrade.in_progress` of the
upgrade-helpers library.  An upgrade session "exists while at least one
member's revision differs from the target revision". -/
def in_progress (s : UpgradeState) : Bool :=
  s.members.any (fun m => decide (m.revision ≠ s.appRevision))

/-- The loop condition of `_determine_partition`: a member stops the scan
when (no action event and its state is not `HEALTHY`) or its workload
container version differs from the app's. -/
def isBlocked (forced : Bool) (appRev : String) (m : Member) : Bool :=
  (!forced && decide (m.state ≠ some UnitState.healthy)) || decide (m.revision ≠ appRev)

/-- The scan loop of `_determine_partition`: return the ordinal of the
first blocking member, else 0. -/
def scanPartition (forced : Bool) (appRev : String) : List Member → Nat
  | [] => 0
  | m :: rest => if isBlocked forced appRev m then m.ordinal else scanPartition forced appRev rest

/-- `KubernetesUpgrade._determine_partition(units, action_event)`.
`forced = true` models `action_event ≠ None`. -/
def determine_partition (s : UpgradeState) (forced : Bool) : Nat :=
  if in_progress s then scanPartition forced s.appRevision s.members else 0

/-- Observable result of one handler/action invocation: no action event at
all, the `assert` statement firing (uncaught `AssertionError`),
`event.fail(msg)`, or `event.set_results({"result": msg})`. -/
inductive Outcome where
  | noEvent
  | assertionError
  | failed (msg : String)
  | succeeded (msg : String)
deriving DecidableEq

/-- The action branch of `reconcile_partition`, evaluated after the
partition has (possibly) been lowered to `newp`: `assert len(units) >= 2`,
then fail if `self._partition > unit_number(units[1])`, else report the
attempt. -/
def reconcileOutcome (s : UpgradeState) (hasAction : Bool) (newp : Nat) : Outcome :=
  if hasAction then
    match s.members.get? 1 with
    | none => Outcome.assertionError
    | some u1 =>
      if u1.ordinal < newp then
        Outcome.failed "Highest number unit is unhealthy. Refresh will not resume."
      else
        Outcome.succeeded ("Attempting to refresh unit " ++ toString newp ++ ".")
  else Outcome.noEvent

/-- `KubernetesUpgrade.reconcile_partition(action_event=...)`.  Returns the
partition value stored after the call together with the action outcome.
The partition is written only when the determined value is strictly lower
(`if partition_ < self._partition`); the action branch then reads the
updated `self._partition`. -/
def reconcile_partition (s : UpgradeState) (hasAction : Bool) : Nat × Outcome :=
  let det := determine_partition s hasAction
  let newp := if det < s.partition then det else s.partition
  (newp, reconcileOutcome s hasAction newp)

/-- Context of one `MongosUpgrade` handler invocation.  `upgradeState` is
`none` when constructing `KubernetesUpgrade` raises `PeerRelationNotReady`
(so the `_upgrade` property is `None`).  `precheckError` models
`pre_upgrade_check()` (spec: the external `ReadinessCheck`), `some reason`
when it raises `PrecheckFailed(reason)`.  `versionsSet`, `isCompatible`,
`dbInitialised`, `dbServiceReady`, `duringUpgrade` model the
correspondingly named checks of `_reconcile_upgrade`. -/
structure CharmCtx where
  isLeader : Bool
  appName : String
  upgradeState : Option UpgradeState
  precheckError : Option String
  versionsSet : Bool
  isCompatible : Bool
  dbInitialised : Bool
  dbServiceReady : Bool
  duringUpgrade : Bool
  unitOrdinal : Nat

/-- `MongosUpgrade._on_force_upgrade_action`: leader check, in-progress
check, then `reconcile_partition(action_event=event)`.  Returns the action
outcome and the upgrade state (with the possibly rewritten partition). -/
def onForceUpgradeAction (c : CharmCtx) : Outcome × Option UpgradeState :=
  if c.isLeader = false then
    (Outcome.failed ("Must run action on leader unit. (e.g. `juju run " ++ c.appName ++
      "/leader force-refresh-start`)"), c.upgradeState)
  else
    match c.upgradeState with
    | none => (Outcome.failed "No upgrade in progress", c.upgradeState)
    | some u =>
      if in_progress u = false then
        (Outcome.failed "No upgrade in progress", c.upgradeState)
      else
        ((reconcile_partition u true).2, some { u with partition := (reconcile_partition u true).1 })

/-- `MongosUpgrade._on_pre_upgrade_check_action`: leader check, then fail
with "Upgrade already in progress" when `_upgrade` is `None` or an upgrade
is in progress, then run `pre_upgrade_check()`.  The handler never touches
the partition, so the upgrade state is returned unchanged. -/
def onPreUpgradeCheckAction (c : CharmCtx) : Outcome × Option UpgradeState :=
  if c.isLeader = false then
    (Outcome.failed ("Must run action on leader unit. (e.g. `juju run " ++ c.appName ++
      "/leader pre-refresh-check`)"), c.upgradeState)
  else
    match c.upgradeState with
    | none => (Outcome.failed "Upgrade already in progress", c.upgradeState)
    | some u =>
      if in_progress u = true then
        (Outcome.failed "Upgrade already in progress", c.upgradeState)
      else
        match c.precheckError with
        | some reason =>
          (Outcome.failed ("Charm is *not* ready for refresh. Pre-refresh check failed: " ++ reason),
            c.upgradeState)
        | none => (Outcome.succeeded "Charm is ready for refresh", c.upgradeState)

/-- The `state` key of this unit's own peer-relation databag
(`self._upgrade.unit_state`). -/
def ownState (u : UpgradeState) (ord : Nat) : Option UnitState :=
  (u.members.find? (fun m => m.ordinal == ord)).bind Member.state

/-- The write `self._upgrade.unit_state = UnitState.HEALTHY` performed by
`_reconcile_upgrade`: the unit updates its own databag entry only. -/
def markHealthy (ord : Nat) (m : Member) : Member :=
  if m.ordinal = ord then { m with state := some UnitState.healthy } else m

def setOwnStateHealthy (u : UpgradeState) (ord : Nat) : UpgradeState :=
  { u with members := u.members.map (markHealthy ord) }

/-- `MongosUpgrade._reconcile_upgrade`: early returns when `_upgrade` is
`None` or versions are not set, the incompatible-restart early return, the
own-state `HEALTHY` write, and — only on the leader —
`reconcile_partition()` with no action event.  The boolean records whether
`reconcile_partition` ran.  (The version-databag seeding and status
updates touch neither member state nor partition and are not modelled.) -/
def reconcileUpgradeHandler (c : CharmCtx) : Option UpgradeState × Bool :=
  match c.upgradeState with
  | none => (none, false)
  | some u0 =>
    if c.versionsSet = false then (some u0, false)
    else if ownState u0 c.unitOrdinal = some UnitState.restarting ∧ c.isCompatible = false then
      (some u0, false)
    else
      let u1 := if c.duringUpgrade = false ∧ c.dbInitialised = true ∧ c.dbServiceReady = true
                then setOwnStateHealthy u0 c.unitOrdinal else u0
      if c.isLeader = true then
        (some { u1 with partition := (reconcile_partition u1 false).1 }, true)
      else (some u1, false)

/-- Rewrite a member's reported health state, leaving ordinal and revision
untouched (used to express that the forced scan ignores health). -/
def restate (f : Member → Option UnitState) (m : Member) : Member :=
  { m with state := f m }

/-- Apply an arbitrary health-state rewrite to every member. -/
def mapStates (f : Member → Option UnitState) (s : UpgradeState) : UpgradeState :=
  { s with members := s.members.map (restate f) }

/-- Concrete states used by counterexamples and witnesses below. -/
def cexForce : UpgradeState :=
  ⟨[⟨0, some UnitState.healthy, "v2"⟩, ⟨1, some UnitState.healthy, "v2"⟩,
    ⟨2, some UnitState.healthy, "v1"⟩], "v2", 2⟩

def cexAssert : UpgradeState :=
  ⟨[⟨0, some UnitState.healthy, "v1"⟩], "v2", 3⟩

def cexResume : UpgradeState :=
  ⟨[⟨0, some UnitState.healthy, "v2"⟩, ⟨1, some UnitState.healthy, "v1"⟩,
    ⟨2, some UnitState.healthy, "v1"⟩], "v2", 2⟩

def wuState1 : UpgradeState :=
  ⟨[⟨0, some UnitState.healthy, "v2"⟩, ⟨1, some UnitState.healthy, "v1"⟩,
    ⟨2, none, "v1"⟩], "v2", 3⟩

def wuState3 : UpgradeState :=
  ⟨[⟨0, some UnitState.healthy, "v1"⟩, ⟨1, some UnitState.healthy, "v1"⟩], "v2", 0⟩

def wuState4 : UpgradeState :=
  ⟨[⟨0, none, "v1"⟩], "v2", 1⟩

def wuState5 : UpgradeState :=
  ⟨[⟨0, some UnitState.healthy, "v2"⟩, ⟨1, some UnitState.healthy, "v2"⟩,
    ⟨2, some UnitState.healthy, "v1"⟩], "v2", 5⟩

def wuState7 : UpgradeState :=
  ⟨[⟨0, some UnitState.healthy, "v2"⟩, ⟨1, some UnitState.healthy, "v2"⟩], "v2", 0⟩

def wuConverged : UpgradeState :=
  ⟨[⟨0, some UnitState.healthy, "v2"⟩], "v2", 0⟩

def wuCtx8 : CharmCtx :=
  ⟨true, "mongos-k8s", some wuConverged, none, true, true, true, true, false, 0⟩

def wuCtx9 : CharmCtx :=
  ⟨false, "mongos-k8s", some wuState1, none, true, true, true, true, false, 1⟩

def wuCtx10 : CharmCtx :=
  ⟨true, "mongos-k8s", none, none, true, true, true, true, false, 0⟩

/-! ## Helper lemmas -/

lemma reconcile_fst (s : UpgradeState) (b : Bool) :
    (reconcile_partition s b).1 =
      if determine_partition s b < s.partition then determine_partition s b else s.partition :=
  rfl

lemma reconcile_snd (s : UpgradeState) (b : Bool) :
    (reconcile_partition s b).2 = reconcileOutcome s b (reconcile_partition s b).1 :=
  rfl

lemma determine_partition_partition_irrelevant (s : UpgradeState) (p : Nat) (b : Bool) :
    determine_partition { s with partition := p } b = determine_partition s b :=
  rfl

lemma scanPartition_min (forced : Bool) (appRev : String) (l : List Member) (m : Member)
    (hs : l.Pairwise (fun a b => a.ordinal < b.ordinal))
    (hm : m ∈ l) (hb : isBlocked forced appRev m = true)
    (hmin : ∀ m' ∈ l, isBlocked forced appRev m' = true → m.ordinal ≤ m'.ordinal) :
    scanPartition forced appRev l = m.ordinal := by
  induction l with
  | nil => cases hm
  | cons a rest ih =>
    rw [scanPartition]
    by_cases ha : isBlocked forced appRev a = true
    · rw [if_pos ha]
      rcases List.mem_cons.mp hm with rfl | hmr
      · rfl
      · have h1 := hmin a (List.mem_cons_self a rest) ha
        have h2 := (List.pairwise_cons.mp hs).1 m hmr
        omega
    · rw [if_neg ha]
      rcases List.mem_cons.mp hm with rfl | hmr
      · exact absurd hb ha
      · exact ih (List.pairwise_cons.mp hs).2 hmr
          (fun m' hm' hb' => hmin m' (List.mem_cons_of_mem a hm') hb')

lemma scanPartition_forced_find (appRev : String) (l : List Member) :
    scanPartition true appRev l =
      (match l.find? (fun m => decide (m.revision ≠ appRev)) with
       | some m => m.ordinal
       | none => 0) := by
  induction l with
  | nil => rfl
  | cons a rest ih =>
    rw [scanPartition, List.find?_cons]
    by_cases ha : a.revision = appRev
    · have hb : isBlocked true appRev a = false := by simp [isBlocked, ha]
      simp only [hb, if_false, ha]
      simpa using ih
    · have hb : isBlocked true appRev a = true := by simp [isBlocked, ha]
      simp only [hb, if_true, ha]
      simp [ha]

lemma scanPartition_forced_restate (appRev : String) (f : Member → Option UnitState)
    (l : List Member) :
    scanPartition true appRev (l.map (restate f)) = scanPartition true appRev l := by
  induction l with
  | nil => rfl
  | cons a rest ih =>
    rw [List.map_cons, scanPartition, scanPartition]
    have hbl : isBlocked true appRev (restate f a) = isBlocked true appRev a := by
      simp [isBlocked, restate]
    rw [hbl]
    by_cases ha : isBlocked true appRev a = true
    · simp [ha, restate]
    · simp only [ha, if_false]
      exact ih

lemma in_progress_mapStates (f : Member → Option UnitState) (s : UpgradeState) :
    in_progress (mapStates f s) = in_progress s := by
  simp only [in_progress, mapStates, List.any_map]
  apply congrArg
  funext m
  simp [Function.comp, restate]

lemma setOwnStateHealthy_partition (u : UpgradeState) (o : Nat) :
    (setOwnStateHealthy u o).partition = u.partition :=
  rfl

/-! ## Claim theorems -/

/-- C1: if the members are listed in ascending ordinal order (as
`_sorted_units` provides), an upgrade is in progress, and the member with
ordinal `k` is the lowest-ordinal member that is not `HEALTHY` or not at
the target revision, then `_determine_partition` with `action_event=None`
returns `k`: the scan returns the ordinal of the first member that is not
`HEALTHY` or whose current revision differs from the target revision. -/
theorem determine_partition_first_blocked (s : UpgradeState) (m : Member) (k : Nat)
    (hsorted : s.members.Pairwise (fun a b => a.ordinal < b.ordinal))
    (hprog : in_progress s = true)
    (hmem : m ∈ s.members)
    (hblocked : isBlocked false s.appRevision m = true)
    (hmin : ∀ m' ∈ s.members, isBlocked false s.appRevision m' = true → m.ordinal ≤ m'.ordinal)
    (hk : m.ordinal = k) :
    determine_partition s false = k := by
  subst hk
  unfold determine_partition
  rw [hprog, if_pos rfl]
  exact scanPartition_min false s.appRevision s.members m hsorted hmem hblocked hmin

theorem determine_partition_first_blocked_witness :
    determine_partition wuState1 false = 1 :=
  determine_partition_first_blocked wuState1 ⟨1, some UnitState.healthy, "v1"⟩ 1
    (by decide) (by decide) (by decide) (by decide) (by decide) rfl

/-- C2: `reconcile_partition` never raises the stored partition: the new
value is written only when strictly lower than the current one, the value
after the call is at most the value before it, and a second call with no
state change in between returns the same partition value. -/
theorem reconcile_partition_monotone_idempotent (s : UpgradeState) (b : Bool) :
    (reconcile_partition s b).1 =
      (if determine_partition s b < s.partition then determine_partition s b else s.partition) ∧
    (reconcile_partition s b).1 ≤ s.partition ∧
    (reconcile_partition { s with partition := (reconcile_partition s b).1 } b).1 =
      (reconcile_partition s b).1 := by
  refine ⟨rfl, ?_, ?_⟩
  · rw [reconcile_fst]
    split <;> omega
  · rw [reconcile_fst { s with partition := (reconcile_partition s b).1 } b,
      determine_partition_partition_irrelevant]
    rw [reconcile_fst s b]
    by_cases h : determine_partition s b < s.partition
    · simp [h]
    · simp only [h, if_false]

/-- C6: `_determine_partition` with a non-`None` action event ignores each
member's health state: it returns the ordinal of the first member whose
controller revision differs from the app's target revision (0 when none
does), and an arbitrary rewrite of the health states never changes the
result. -/
theorem determine_partition_forced_revision_only (s : UpgradeState)
    (f : Member → Option UnitState) :
    determine_partition s true =
      (match s.members.find? (fun m => decide (m.revision ≠ s.appRevision)) with
       | some m => m.ordinal
       | none => 0) ∧
    determine_partition (mapStates f s) true = determine_partition s true := by
  constructor
  · by_cases hp : in_progress s = true
    · unfold determine_partition
      rw [hp, if_pos rfl]
      exact scanPartition_forced_find s.appRevision s.members
    · unfold determine_partition
      rw [if_neg hp]
      have hall : ∀ m ∈ s.members, ¬ ((fun m => decide (m.revision ≠ s.appRevision)) m = true) := by
        intro m hm hne
        apply hp
        simp only [in_progress, List.any_eq_true]
        exact ⟨m, hm, hne⟩
      rw [List.find?_eq_none.mpr hall]
  · unfold determine_partition
    rw [in_progress_mapStates]
    by_cases hp : in_progress s = true
    · rw [hp, if_pos rfl, if_pos rfl]
      exact scanPartition_forced_restate s.appRevision f s.members
    · rw [if_neg hp, if_neg hp]

/-- C7: when every member is at the target revision and `HEALTHY` (no
upgrade session in progress), `_determine_partition` returns 0 for either
value of the forced flag. -/
theorem determine_partition_all_converged (s : UpgradeState) (b : Bool)
    (h : ∀ m ∈ s.members, m.revision = s.appRevision ∧ m.state = some UnitState.healthy) :
    determine_partition s b = 0 := by
  have hp : in_progress s = false := by
    simp only [in_progress, List.any_eq_false]
    intro m hm
    simp [(h m hm).1]
  unfold determine_partition
  rw [hp]
  rfl

theorem determine_partition_all_converged_witness :
    determine_partition wuState7 true = 0 :=
  determine_partition_all_converged wuState7 true (by decide)

/-- C3 counterexample: with members 0,1,2 where units 0 and 1 are at the
target revision and unit 2 is not, and partition 2 (which exceeds the
second-lowest ordinal 1, so a non-forced resume would be refused), the
forced action does not bypass the second-member check: it fails and the
partition neither strictly decreases nor moves to the next ordinal. -/
theorem force_action_not_bypass_cex :
    cexForce.partition = 2 ∧
    cexForce.members.get? 1 = some ⟨1, some UnitState.healthy, "v2"⟩ ∧
    1 < cexForce.partition ∧
    reconcile_partition cexForce true =
      (2, Outcome.failed "Highest number unit is unhealthy. Refresh will not resume.") := by
  decide

/-- C3 (amended): the force path runs the same second-member check instead
of bypassing it: the stored partition never increases, the action fails
with the refusal message exactly when the partition remaining after the
monotonic lowering step still exceeds the second-lowest member's ordinal,
and otherwise reports an attempt to refresh the unit at the (possibly
unchanged, not necessarily strictly decreased) partition. -/
theorem force_action_second_member_check (s : UpgradeState) (u1 : Member)
    (h1 : s.members.get? 1 = some u1) :
    (reconcile_partition s true).1 ≤ s.partition ∧
    ((reconcile_partition s true).2 =
        Outcome.failed "Highest number unit is unhealthy. Refresh will not resume." ↔
      u1.ordinal < (reconcile_partition s true).1) ∧
    (¬ u1.ordinal < (reconcile_partition s true).1 →
      (reconcile_partition s true).2 =
        Outcome.succeeded
          ("Attempting to refresh unit " ++ toString (reconcile_partition s true).1 ++ ".")) := by
  refine ⟨?_, ?_, ?_⟩
  · rw [reconcile_fst]
    split <;> omega
  · rw [reconcile_snd]
    unfold reconcileOutcome
    rw [if_pos rfl, h1]
    by_cases h : u1.ordinal < (reconcile_partition s true).1
    · simp [h]
    · simp [h]
  · intro h
    rw [reconcile_snd]
    unfold reconcileOutcome
    rw [if_pos rfl, h1]
    exact if_neg h

theorem force_action_second_member_check_witness :
    (reconcile_partition wuState3 true).1 ≤ wuState3.partition ∧
    (reconcile_partition wuState3 true).2 =
      Outcome.succeeded
        ("Attempting to refresh unit " ++ toString (reconcile_partition wuState3 true).1 ++ ".") := by
  have h := force_action_second_member_check wuState3 ⟨1, some UnitState.healthy, "v1"⟩ rfl
  exact ⟨h.1, h.2.2 (by decide)⟩

/-- C4 counterexample: invoking the action path with a single registered
member does not produce a descriptive action failure — it aborts with the
`assert len(units) >= 2` assertion error — and state is mutated before the
assert fires: the partition is lowered from 3 to 0. -/
theorem resume_few_members_cex :
    cexAssert.members.length = 1 ∧
    cexAssert.partition = 3 ∧
    reconcile_partition cexAssert true = (0, Outcome.assertionError) := by
  decide

/-- C4 (amended): when the action path runs with fewer than 2 members, the
invocation aborts with an uncaught assertion error rather than a
descriptive action failure, and the reconciliation step that runs before
the membership check may already have lowered the partition (it never
raises it). -/
theorem resume_few_members_assertion (s : UpgradeState)
    (h : s.members.length < 2) :
    (reconcile_partition s true).2 = Outcome.assertionError ∧
    (reconcile_partition s true).1 ≤ s.partition := by
  have hg : s.members.get? 1 = none := by
    rw [List.get?_eq_none]
    omega
  constructor
  · rw [reconcile_snd]
    unfold reconcileOutcome
    rw [if_pos rfl, hg]
  · rw [reconcile_fst]
    split <;> omega

theorem resume_few_members_assertion_witness :
    (reconcile_partition wuState4 true).2 = Outcome.assertionError ∧
    (reconcile_partition wuState4 true).1 ≤ wuState4.partition :=
  resume_few_members_assertion wuState4 (by decide)

/-- C5 counterexample: with members 0,1,2 where only unit 0 is at the
target revision, and partition 2 at invocation (exceeding the
second-lowest ordinal 1), the action is not refused: reconciliation lowers
the partition to 1 before the check, so the action succeeds and the
upgrade boundary advances from 2 to 1. -/
theorem resume_refusal_cex :
    cexResume.partition = 2 ∧
    cexResume.members.get? 1 = some ⟨1, some UnitState.healthy, "v1"⟩ ∧
    1 < cexResume.partition ∧
    reconcile_partition cexResume true =
      (1, Outcome.succeeded "Attempting to refresh unit 1.") := by
  decide

/-- C5 (amended): the refusal check reads the partition value left after
the monotonic lowering step, not the value at invocation: when that value
still exceeds the second-lowest member's ordinal the action fails with the
user-facing refusal message, and the failing invocation never raises the
partition (though the lowering step preceding the check may already have
advanced the boundary). -/
theorem resume_refused_after_lowering (s : UpgradeState) (u1 : Member)
    (h1 : s.members.get? 1 = some u1)
    (hgt : u1.ordinal < (reconcile_partition s true).1) :
    (reconcile_partition s true).2 =
      Outcome.failed "Highest number unit is unhealthy. Refresh will not resume." ∧
    (reconcile_partition s true).1 ≤ s.partition := by
  constructor
  · rw [reconcile_snd]
    unfold reconcileOutcome
    rw [if_pos rfl, h1]
    exact if_pos hgt
  · rw [reconcile_fst]
    split <;> omega

theorem resume_refused_after_lowering_witness :
    (reconcile_partition wuState5 true).2 =
      Outcome.failed "Highest number unit is unhealthy. Refresh will not resume." ∧
    (reconcile_partition wuState5 true).1 ≤ wuState5.partition :=
  resume_refused_after_lowering wuState5 ⟨1, some UnitState.healthy, "v2"⟩ rfl (by decide)

/-- C8: on the leader, the pre-refresh-check action fails with "Upgrade
already in progress" whenever an upgrade is in progress; when invoked
validly it runs the readiness check instead of reconciliation, failing the
action with a message carrying the underlying reason on any readiness
failure and succeeding otherwise; and the handler never mutates the
partition (the upgrade state is returned unchanged in every case). -/
theorem precheck_action_spec (c : CharmCtx) (u : UpgradeState)
    (hl : c.isLeader = true) (hu : c.upgradeState = some u) :
    (onPreUpgradeCheckAction c).2 = c.upgradeState ∧
    (in_progress u = true →
      (onPreUpgradeCheckAction c).1 = Outcome.failed "Upgrade already in progress") ∧
    (∀ r, in_progress u = false → c.precheckError = some r →
      (onPreUpgradeCheckAction c).1 =
        Outcome.failed ("Charm is *not* ready for refresh. Pre-refresh check failed: " ++ r)) ∧
    (in_progress u = false → c.precheckError = none →
      (onPreUpgradeCheckAction c).1 = Outcome.succeeded "Charm is ready for refresh") := by
  refine ⟨?_, ?_, ?_, ?_⟩
  · unfold onPreUpgradeCheckAction
    rw [hl]
    simp only [Bool.true_eq_false, if_false, hu]
    by_cases hp : in_progress u = true
    · simp [hp]
    · simp only [hp, if_false]
      cases hr : c.precheckError <;> simp
  · intro hp
    unfold onPreUpgradeCheckAction
    rw [hl]
    simp [hu, hp]
  · intro r hp hr
    unfold onPreUpgradeCheckAction
    rw [hl]
    simp [hu, hp, hr]
  · intro hp hr
    unfold onPreUpgradeCheckAction
    rw [hl]
    simp [hu, hp, hr]

theorem precheck_action_spec_witness :
    (onPreUpgradeCheckAction wuCtx8).2 = wuCtx8.upgradeState ∧
    (onPreUpgradeCheckAction wuCtx8).1 = Outcome.succeeded "Charm is ready for refresh" := by
  have h := precheck_action_spec wuCtx8 wuConverged rfl rfl
  exact ⟨h.1, h.2.2.2 (by decide) rfl⟩

/-- C9: a non-leader unit never runs the mutating reconcile path: the
upgrade-event handler does not invoke `reconcile_partition` and leaves the
stored partition unchanged, and both the force-refresh-start and
pre-refresh-check actions fail immediately with the leader-required
message, without reconciling or writing the partition store. -/
theorem nonleader_never_reconciles (c : CharmCtx) (h : c.isLeader = false) :
    (reconcileUpgradeHandler c).2 = false ∧
    Option.map UpgradeState.partition (reconcileUpgradeHandler c).1 =
      Option.map UpgradeState.partition c.upgradeState ∧
    (onForceUpgradeAction c).1 =
      Outcome.failed ("Must run action on leader unit. (e.g. `juju run " ++ c.appName ++
        "/leader force-refresh-start`)") ∧
    (onForceUpgradeAction c).2 = c.upgradeState ∧
    (onPreUpgradeCheckAction c).1 =
      Outcome.failed ("Must run action on leader unit. (e.g. `juju run " ++ c.appName ++
        "/leader pre-refresh-check`)") ∧
    (onPreUpgradeCheckAction c).2 = c.upgradeState := by
  refine ⟨?_, ?_, ?_, ?_, ?_, ?_⟩
  · unfold reconcileUpgradeHandler
    rw [h]
    cases hc : c.upgradeState with
    | none => rfl
    | some u0 =>
      show ((if c.versionsSet = false then ((some u0 : Option UpgradeState), false)
          else if ownState u0 c.unitOrdinal = some UnitState.restarting ∧ c.isCompatible = false
            then (some u0, false)
          else (some (if c.duringUpgrade = false ∧ c.dbInitialised = true ∧ c.dbServiceReady = true
            then setOwnStateHealthy u0 c.unitOrdinal else u0), false)).2 = false)
      split
      · rfl
      · split <;> rfl
  · unfold reconcileUpgradeHandler
    rw [h]
    cases hc : c.upgradeState with
    | none => rfl
    | some u0 =>
      show Option.map UpgradeState.partition
          ((if c.versionsSet = false then ((some u0 : Option UpgradeState), false)
            else if ownState u0 c.unitOrdinal = some UnitState.restarting ∧ c.isCompatible = false
              then (some u0, false)
            else (some (if c.duringUpgrade = false ∧ c.dbInitialised = true ∧ c.dbServiceReady = true
              then setOwnStateHealthy u0 c.unitOrdinal else u0), false)).1) =
          Option.map UpgradeState.partition (some u0)
      split
      · rfl
      · split
        · rfl
        · show some (if c.duringUpgrade = false ∧ c.dbInitialised = true ∧ c.dbServiceReady = true
              then setOwnStateHealthy u0 c.unitOrdinal else u0).partition = some u0.partition
          split <;> rfl
  · unfold onForceUpgradeAction
    rw [h, if_pos rfl]
  · unfold onForceUpgradeAction
    rw [h, if_pos rfl]
  · unfold onPreUpgradeCheckAction
    rw [h, if_pos rfl]
  · unfold onPreUpgradeCheckAction
    rw [h, if_pos rfl]

theorem nonleader_never_reconciles_witness :
    (reconcileUpgradeHandler wuCtx9).2 = false ∧
    Option.map UpgradeState.partition (reconcileUpgradeHandler wuCtx9).1 =
      Option.map UpgradeState.partition wuCtx9.upgradeState ∧
    (onForceUpgradeAction wuCtx9).1 =
      Outcome.failed ("Must run action on leader unit. (e.g. `juju run " ++ wuCtx9.appName ++
        "/leader force-refresh-start`)") ∧
    (onForceUpgradeAction wuCtx9).2 = wuCtx9.upgradeState ∧
    (onPreUpgradeCheckAction wuCtx9).1 =
      Outcome.failed ("Must run action on leader unit. (e.g. `juju run " ++ wuCtx9.appName ++
        "/leader pre-refresh-check`)") ∧
    (onPreUpgradeCheckAction wuCtx9).2 = wuCtx9.upgradeState :=
  nonleader_never_reconciles wuCtx9 rfl

/-- C10: when the peer upgrade relation is not yet available (the
`_upgrade` property is `None`), the pre-refresh-check action invoked on
the leader fails with the message "Upgrade already in progress" — the same
message as when an upgrade is actually running — rather than a distinct
not-ready error. -/
theorem precheck_peer_not_ready_message (c : CharmCtx)
    (hl : c.isLeader = true) (hu : c.upgradeState = none) :
    (onPreUpgradeCheckAction c).1 = Outcome.failed "Upgrade already in progress" := by
  unfold onPreUpgradeCheckAction
  rw [hl]
  simp [hu]

theorem precheck_peer_not_ready_message_witness :
    (onPreUpgradeCheckAction wuCtx10).1 = Outcome.failed "Upgrade already in progress" :=
  precheck_peer_not_ready_message wuCtx10 rfl rfl
